import Mathlib

/-!
Verification development for the media-recommender repository.

The recommendation and scoring engine is shallowly embedded here:

* `MediaRec.calculateSimilarity` embeds `calculateSimilarity` from
  `src/app/api/recommendations/route.ts` (lines 310-373).
* `MediaRec.calculateSimilarity2` embeds `calculateSimilarity` from the
  legacy route implementation (`src/unnamed/part_002`, lines 173-256).
* `MediaRec.analyzePatterns` embeds `analyzePatterns` (identical in
  `route.ts` lines 261-307 and `part_002` lines 125-171).
* `MediaRec.rankAndDeduplicate` embeds `RecommendationEngine.rankAndDeduplicate`
  from `src/unnamed/part_000` (lines 91-120).
* `MediaRec.handleGET` embeds the cache-interaction skeleton of the `GET`
  handler in `route.ts` (lines 443-625).
* `MediaRec.generateCacheKey` embeds `generateCacheKey` from
  `src/lib/redis.ts` (lines 57-60), and `MediaRec.fetchTMDBData` embeds
  `fetchTMDBData` from the same file (lines 101-138).

Numeric conventions: JavaScript numbers are modeled as exact rationals.
NaN is modeled as `none` in `Option Rat`; the only NaN source reachable in
the scoring code is a 0/0 division (a zero denominator under a truthy-array
guard), and NaN propagates through arithmetic, `Math.min` and `Math.max`,
which is reflected by `Option.bind` style propagation below.
-/

namespace MediaRec

/-- JavaScript number: `none` models NaN. -/
abbrev JSNum := Option ℚ

/-- Math.min(Math.max(q, 0), 1) on a non-NaN number. -/
def clamp01 (q : ℚ) : ℚ := min (max q 0) 1

/-! ### Scoring weights (route.ts lines 118-132) -/

def directRecommendationW : ℚ := 60 / 100
def similarW : ℚ := 20 / 100
def genreMatchW : ℚ := 10 / 100
def thematicPatternW : ℚ := 5 / 100
def voteAverageW : ℚ := 3 / 100
def popularityW : ℚ := 1 / 100
def yearProximityW : ℚ := 1 / 100

/-- Sum of all entries of SCORING_WEIGHTS (route.ts line 129). -/
def TOTAL_WEIGHT : ℚ :=
  directRecommendationW + similarW + genreMatchW + thematicPatternW +
    voteAverageW + popularityW + yearProximityW

/-! ### Media items

Model of the `MediaItem` interface as consumed by the two similarity
functions.  Genres and keywords are compared by their numeric `id` only, so
they are modeled as lists of ids.  The `year` field models the result of
`new Date(first_air_date || release_date || 0).getFullYear()`: `none` means
both date fields are absent or unparsable; when both are absent the code
falls back to `new Date(0)`, whose year is 1970 (see `effYear`). -/

structure MediaItem where
  id : Nat
  genres : Option (List Nat) := none
  patterns : Option (List String) := none
  keywords : Option (List Nat) := none
  vote_average : Option ℚ := none
  vote_count : Option ℚ := none
  popularity : Option ℚ := none
  year : Option Int := none
  recommendations : List Nat := []
  similar : List Nat := []
deriving DecidableEq

/-- Provenance of a candidate (route.ts: the `source` tag). -/
inductive RecSource
  | direct
  | similar
deriving DecidableEq

/-- Effective year used by the scorers: both date fields absent means
`new Date(0)`, i.e. the year 1970. -/
def effYear (i : MediaItem) : Int := i.year.getD 1970

/-! ### route.ts calculateSimilarity (lines 310-373) -/

/-- Base score from the recommendation source (route.ts line 314). -/
def sourceTerm : RecSource → ℚ
  | .direct => directRecommendationW
  | .similar => similarW

/-- Number of ids of the first list that occur in the second
(route.ts lines 319-321). -/
def idOverlapCount (g1 g2 : List Nat) : Nat :=
  (g1.filter (fun a => g2.contains a)).length

/-- Genre component of route.ts calculateSimilarity (lines 318-324).
Both lists present (JS: arrays are truthy even when empty) enters the
branch; a 0/0 division, i.e. both lists empty, yields NaN (`none`). -/
def genreTerm (i1 i2 : MediaItem) : JSNum :=
  match i1.genres, i2.genres with
  | some g1, some g2 =>
      if max g1.length g2.length = 0 then none
      else some ((idOverlapCount g1 g2 : ℚ) / (max g1.length g2.length : ℚ) * genreMatchW)
  | _, _ => some 0

/-- Thematic pattern component (route.ts lines 327-331).  The denominator is
`Math.max(item1.patterns.length, item2.patterns?.length || 1)`, which is
always at least 1 whenever the second list is empty, and otherwise at least
the nonzero second length, except in the case where both are nonempty.  A
zero denominator would need both lengths to be 0, but then the `|| 1`
fallback makes it 1, so this component never divides by zero. -/
def patternTerm (i1 i2 : MediaItem) : JSNum :=
  match i1.patterns, i2.patterns with
  | some p1, some p2 =>
      let denom : Nat := max p1.length (if p2.length = 0 then 1 else p2.length)
      some (((p1.filter (fun p => p2.contains p)).length : ℚ) / (denom : ℚ) * thematicPatternW)
  | _, _ => some 0

/-- Bayesian-style weighted rating (route.ts lines 335-338): note the code
mixes scales, `vote_average / 10` against a prior mean of `7.0` that is not
divided by 10. -/
def weightedRating (va vc : ℚ) : ℚ :=
  (vc * (va / 10) + 1000 * 7) / (vc + 1000)

/-- Popularity subterm of route.ts (lines 344-346): the dampener is capped
at 0.5 there, and multiplies the weighted rating. -/
def routePopularityComponent (va vc pop : ℚ) : ℚ :=
  min (vc / 1000) 1 * weightedRating va vc * (1 - min (pop / 1000) (1 / 2))

/-- Vote-average and nested popularity component (route.ts lines 334-350).
JS truthiness: a missing or zero number skips the branch.  The weighted
rating denominator `vote_count + 1000` is zero only for `vote_count = -1000`,
modeled as NaN. -/
def voteAndPopTerm (i2 : MediaItem) : JSNum :=
  match i2.vote_average, i2.vote_count with
  | some va, some vc =>
      if va = 0 ∨ vc = 0 then some 0
      else if vc + 1000 = 0 then none
      else
        let voteContribution := weightedRating va vc * voteAverageW
        let popContribution : ℚ :=
          match i2.popularity with
          | some pop => if pop = 0 then 0 else routePopularityComponent va vc pop * popularityW
          | none => 0
        some (voteContribution + popContribution)
  | _, _ => some 0

/-- Year proximity component (route.ts lines 353-359); the guard is JS
truthiness of the computed years, so year 0 skips the component. -/
def yearTerm (i1 i2 : MediaItem) : JSNum :=
  let y1 := effYear i1
  let y2 := effYear i2
  if y1 = 0 ∨ y2 = 0 then some 0
  else some (max 0 (1 - ((y1 - y2).natAbs : ℚ) / 10) * yearProximityW)

/-- Result shape of route.ts calculateSimilarity (lines 364-372). -/
structure SimilarityResult where
  score : JSNum
  weightedScore : JSNum
  totalWeight : ℚ
deriving DecidableEq

/-- Embedding of route.ts `calculateSimilarity` (lines 310-373): the raw
total is the sum of the component contributions and the final score clamps
it into [0,1] with `Math.min(Math.max(totalScore, 0), 1)`; NaN propagates
through both. -/
def calculateSimilarity (i1 i2 : MediaItem) (src : RecSource) : SimilarityResult :=
  let total : JSNum := do
    let g ← genreTerm i1 i2
    let p ← patternTerm i1 i2
    let v ← voteAndPopTerm i2
    let y ← yearTerm i1 i2
    pure (sourceTerm src + g + p + v + y)
  { score := total.map clamp01
    weightedScore := total
    totalWeight := TOTAL_WEIGHT }

/-! ### part_002 calculateSimilarity (lines 173-256)

Every component of the legacy scorer contributes a pair
`(score contribution, weight contribution)`.  A skipped component
contributes `(0, 0)`.  A component whose division has a zero denominator is
NaN, modeled as `none` for the whole result, since NaN poisons the final
`score / weights` quotient. -/

/-- Pattern component of part_002 (lines 187-194): 0/0 when both pattern
lists are present and empty. -/
def patternComp2 (i1 i2 : MediaItem) : Option (ℚ × ℚ) :=
  match i1.patterns, i2.patterns with
  | some p1, some p2 =>
      if max p1.length p2.length = 0 then none
      else some (((p1.filter (fun p => p2.contains p)).length : ℚ) /
        (max p1.length p2.length : ℚ) * (40 / 100), 40 / 100)
  | _, _ => some (0, 0)

/-- Genre component of part_002 (lines 197-206): 0/0 when both genre lists
are present and empty. -/
def genreComp2 (i1 i2 : MediaItem) : Option (ℚ × ℚ) :=
  match i1.genres, i2.genres with
  | some g1, some g2 =>
      if max g1.length g2.length = 0 then none
      else some ((idOverlapCount g1 g2 : ℚ) / (max g1.length g2.length : ℚ) * (20 / 100),
        20 / 100)
  | _, _ => some (0, 0)

/-- Keyword component of part_002 (lines 209-218): the denominator
`Math.max(1, Math.min(item1.keywords.length, 20))` is at least 1, so this
component never divides by zero, but the ratio can exceed 1 when the first
item has more than 20 keywords. -/
def keywordComp2 (i1 i2 : MediaItem) : ℚ × ℚ :=
  match i1.keywords, i2.keywords with
  | some k1, some k2 =>
      ((idOverlapCount k1 k2 : ℚ) / (max 1 (min k1.length 20) : ℚ) * (15 / 100), 15 / 100)
  | _, _ => (0, 0)

/-- Era component of part_002 (lines 221-229): a 20-year window, with the
same 1970 fallback for absent dates. -/
def yearComp2 (i1 i2 : MediaItem) : ℚ × ℚ :=
  let y1 := effYear i1
  let y2 := effYear i2
  if y1 = 0 ∨ y2 = 0 then (0, 0)
  else ((1 - min (((y1 - y2).natAbs : ℚ) / 20) 1) * (15 / 100), 15 / 100)

/-- Rating component of part_002 (lines 232-238), guarded by JS truthiness
of both vote averages. -/
def ratingComp2 (i1 i2 : MediaItem) : ℚ × ℚ :=
  match i1.vote_average, i2.vote_average with
  | some va1, some va2 =>
      if va1 = 0 ∨ va2 = 0 then (0, 0)
      else ((1 - |va1 - va2| / 10) * (10 / 100), 10 / 100)
  | _, _ => (0, 0)

/-- Popularity factor of part_002 (lines 242-245): vote-count saturation
times quality score times a dampener capped at 0.9. -/
def popularityFactor2 (i2 : MediaItem) : ℚ :=
  min (i2.vote_count.getD 0 / 1000) 1 * (i2.vote_average.getD 0 / 10) *
    (1 - min (i2.popularity.getD 0 / 1000) (9 / 10))

/-- Multiplicative popularity adjustment of part_002 (lines 241-250): applied
only when vote count and popularity are truthy, and can reduce the score by
up to 20 percent. -/
def popAdjust2 (i2 : MediaItem) (score : ℚ) : ℚ :=
  match i2.vote_count, i2.popularity with
  | some vc, some pop =>
      if vc = 0 ∨ pop = 0 then score
      else score * (8 / 10 + popularityFactor2 i2 * (2 / 10))
  | _, _ => score

/-- Embedding of part_002 `calculateSimilarity` (lines 173-256): the
accumulated weighted sum is popularity-adjusted and divided by the sum of
the weights actually applied; there is no clamping. -/
def calculateSimilarity2 (i1 i2 : MediaItem) : JSNum := do
  let (s1, w1) ← patternComp2 i1 i2
  let (s2, w2) ← genreComp2 i1 i2
  let (s3, w3) := keywordComp2 i1 i2
  let (s4, w4) := yearComp2 i1 i2
  let (s5, w5) := ratingComp2 i1 i2
  let score := s1 + s2 + s3 + s4 + s5
  let weights := w1 + w2 + w3 + w4 + w5
  let adjusted := popAdjust2 i2 score
  pure (if 0 < weights then adjusted / weights else 0)

/-! ### analyzePatterns (route.ts lines 261-307, part_002 lines 125-171)

The classifier builds, for each marker phrase, a global case-insensitive
regex with word-boundary anchors and counts its matches.  The scan below
models the JS semantics: lowercase both sides (the `i` flag on the ASCII
markers), then repeatedly take the leftmost match whose two ends sit on
word boundaries, resuming after the end of each match. -/

/-- Word character of the regex `\b` boundary: ASCII letters, digits and
underscore. -/
def isWordChar (c : Char) : Bool := c.isAlphanum || c == '_'

/-- Word boundary against the character on the far side of the marker:
text edge or a non-word character.  The markers consist of letters and
spaces and both their first and last characters are word characters, so a
`\b` right outside the marker holds exactly under this condition. -/
def boundaryOk : Option Char → Bool
  | none => true
  | some c => !(isWordChar c)

/-- Marker matches at the head of `text`, with `prev` the character just
before this position. -/
def matchesAt (marker : List Char) (prev : Option Char) (text : List Char) : Bool :=
  boundaryOk prev && marker.isPrefixOf text && boundaryOk (text.drop marker.length).head?

/-- Count of non-overlapping, leftmost-first, word-boundary matches of
`marker` in the remaining text; `prev` is the character preceding the
current position.  The scan consumes at least one character per step, so
structural recursion on a step budget of the text length is exact. -/
def countFromAux (marker : List Char) : Nat → Option Char → List Char → Nat
  | 0, _, _ => 0
  | _, _, [] => 0
  | fuel + 1, prev, c :: cs =>
      if matchesAt marker prev (c :: cs) then
        1 + countFromAux marker fuel ((c :: cs).take marker.length).getLast?
          (cs.drop (marker.length - 1))
      else
        countFromAux marker fuel (some c) cs

/-- The scan entered with its exact step budget. -/
def countFrom (marker : List Char) (prev : Option Char) (text : List Char) : Nat :=
  countFromAux marker text.length prev text

/-- Case-insensitive, word-boundary, global occurrence count of a marker
phrase, as produced by `(text.match(regex) || []).length` for the regex
with flags `gi` built in `analyzePatterns`. -/
def countOccurrences (marker text : String) : Nat :=
  countFrom (marker.data.map Char.toLower) none (text.data.map Char.toLower)

/-- Fixed pattern table of `analyzePatterns` (route.ts lines 265-290). -/
def patternMarkers : List (String × List String) :=
  [("Unreliable Reality",
    ["reality", "dream", "memory", "consciousness", "perception",
     "truth", "illusion", "simulation", "alternate reality"]),
   ("Corporate Dystopia",
    ["corporation", "company", "workplace", "corporate", "dystopia",
     "control", "surveillance", "bureaucracy", "system"]),
   ("Existential Mystery",
    ["existence", "purpose", "meaning", "identity", "philosophical",
     "mystery", "truth", "quest", "journey", "discovery"]),
   ("Hidden World",
    ["secret", "conspiracy", "underground", "beneath", "hidden",
     "truth", "discover", "uncover", "reveal", "world within"]),
   ("Psychological Thriller",
    ["psychological", "mind", "paranoia", "suspense", "tension",
     "mental", "thriller", "sanity", "reality"]),
   ("Complex Narrative",
    ["timeline", "parallel", "interconnected", "mystery box",
     "puzzle", "complex", "layers", "revelation"])]

/-- Total occurrence count of all marker phrases of one pattern
(route.ts lines 294-298, the `reduce` over the marker list). -/
def markerTotal (markers : List String) (text : String) : Nat :=
  markers.foldl (fun c m => c + countOccurrences m text) 0

/-- Embedding of `analyzePatterns` (route.ts lines 261-307): a pattern label
is pushed onto the result exactly when its total marker count reaches the
fixed threshold 3. -/
def analyzePatterns (text : String) : List String :=
  patternMarkers.foldl
    (fun acc pm => if 3 ≤ markerTotal pm.2 text then acc ++ [pm.1] else acc) []

/-! ### Comparator-based sorting

`Array.prototype.sort` with a consistent comparator produces a list in
which every adjacent pair `(a, b)` satisfies `compare(a, b) <= 0`; with the
ECMAScript SortCompare rule a NaN comparator value counts as 0.  The sort
is modeled by insertion sort on the Boolean relation
`le a b := compare(a, b) <= 0`. -/

/-- Insert an element in front of the first position where it may precede
the next element. -/
def insertLe {α : Type} (le : α → α → Bool) (x : α) : List α → List α
  | [] => [x]
  | y :: ys => if le x y then x :: y :: ys else y :: insertLe le x ys

/-- Insertion sort with a Boolean comparator relation. -/
def sortLe {α : Type} (le : α → α → Bool) : List α → List α
  | [] => []
  | x :: xs => insertLe le x (sortLe le xs)

/-! ### part_000 RecommendationEngine (lines 1-133) -/

/-- Input element of `rankAndDeduplicate`: a scored recommendation as built
by the processing steps of `getEnhancedRecommendations`. -/
structure EngineRec where
  id : Nat
  score : ℚ
  source : String
  year : Option Int := none
  genre_ids : List Nat := []
  vote_average : ℚ := 0
deriving DecidableEq

/-- Merged entry of the deduplication map in `rankAndDeduplicate`
(part_000 lines 96-107): the spread of the first occurrence plus the
accumulated sources and frequency. -/
structure MergedRec where
  id : Nat
  score : ℚ
  source : String
  year : Option Int
  genre_ids : List Nat
  vote_average : ℚ
  sources : List String
  frequency : Nat
deriving DecidableEq

/-- One step of the merge loop (part_000 lines 95-108).  A JS `Map` keeps
insertion order and `set` on an existing key updates in place, modeled by
an in-place list update keyed on `id`; on a repeat encounter the running
score is averaged with the new score and the frequency is incremented. -/
def mergeInto (m : List MergedRec) (rec : EngineRec) : List MergedRec :=
  if m.any (fun e => e.id == rec.id) then
    m.map (fun e =>
      if e.id == rec.id then
        { e with
          score := (e.score + rec.score) / 2
          sources := e.sources ++ [rec.source]
          frequency := e.frequency + 1 }
      else e)
  else
    m ++ [{ id := rec.id, score := rec.score, source := rec.source, year := rec.year,
            genre_ids := rec.genre_ids, vote_average := rec.vote_average,
            sources := [rec.source], frequency := 1 }]

/-- Comparator of `rankAndDeduplicate` (part_000 lines 112-117) as the
relation that `a` may precede `b`: primary sort by score descending,
secondary by frequency descending. -/
def rankLe (a b : MergedRec) : Bool :=
  if b.score ≠ a.score then decide (b.score ≤ a.score)
  else decide (b.frequency ≤ a.frequency)

/-- User-preference post-filter (part_000 lines 122-133).  JS truthiness on
each preference field: an absent or zero bound is skipped; a year that is
NaN (absent or unparsable date) compares false against any bound and so
never causes exclusion. -/
structure UserPreferences where
  minYear : Option Int := none
  maxYear : Option Int := none
  excludedGenres : Option (List Nat) := none
  minRating : Option ℚ := none
deriving DecidableEq

/-- Embedding of `applyUserPreferences` (part_000 lines 122-133). -/
def applyUserPreferences (prefs : UserPreferences) (m : MergedRec) : Bool :=
  let minYearHit : Bool :=
    match prefs.minYear, m.year with
    | some mn, some y => mn != 0 && decide (y < mn)
    | _, _ => false
  let maxYearHit : Bool :=
    match prefs.maxYear, m.year with
    | some mx, some y => mx != 0 && decide (mx < y)
    | _, _ => false
  let genreHit : Bool :=
    match prefs.excludedGenres with
    | some ex => m.genre_ids.any (fun g => ex.contains g)
    | none => false
  let ratingHit : Bool :=
    match prefs.minRating with
    | some mr => mr != 0 && decide (m.vote_average < mr)
    | _ => false
  !(minYearHit || maxYearHit || genreHit || ratingHit)

/-- Embedding of `RecommendationEngine.rankAndDeduplicate` (part_000 lines
91-120): merge duplicates by id, sort by the score/frequency comparator,
then apply the user-preference filter. -/
def rankAndDeduplicate (prefs : UserPreferences) (recs : List EngineRec) : List MergedRec :=
  (sortLe rankLe (recs.foldl mergeInto [])).filter (applyUserPreferences prefs)

/-! ### route.ts result deduplication (lines 589-603) -/

/-- Result entry as it enters the final reduce of the GET handler: the
candidate id with its `thematicSimilarity`. -/
structure REntry where
  id : Nat
  score : JSNum
deriving DecidableEq

/-- JavaScript `<` between two scores: any comparison against NaN is
false. -/
def jsLt : JSNum → JSNum → Bool
  | some a, some b => decide (a < b)
  | _, _ => false

/-- One step of the reduce in route.ts lines 592-601: keep the entry of a
repeated id whose `thematicSimilarity` is strictly larger, otherwise keep
the incumbent. -/
def dedupeStep (acc : List REntry) (curr : REntry) : List REntry :=
  match acc.find? (fun item => item.id == curr.id) with
  | none => acc ++ [curr]
  | some existing =>
      if jsLt existing.score curr.score then
        (acc.filter (fun item => item.id != curr.id)) ++ [curr]
      else acc

/-- Comparator of the final sort in route.ts line 602
(`b.thematicSimilarity - a.thematicSimilarity`) as the may-precede
relation; a NaN difference counts as 0 per the ECMAScript SortCompare
rule. -/
def scoreLe (a b : REntry) : Bool :=
  match a.score, b.score with
  | some x, some y => decide (y ≤ x)
  | _, _ => true

/-- Embedding of route.ts lines 589-603: filter out nulls is implicit
(inputs are the successfully resolved entries), then reduce-deduplicate,
sort by similarity descending and truncate to 20. -/
def sortedRecommendations (entries : List REntry) : List REntry :=
  (sortLe scoreLe (entries.foldl dedupeStep [])).take 20

/-! ### redis.ts generateCacheKey (lines 57-60) -/

/-- Argument of `generateCacheKey`: a string or a number part. -/
inductive KeyPart
  | str (s : String)
  | num (n : Int)
deriving DecidableEq

/-- String form a part takes inside `Array.prototype.join`. -/
def KeyPart.chars : KeyPart → List Char
  | .str s => s.data
  | .num n => (toString n).data

/-- Join with the colon delimiter, as `parts.join(':')` does. -/
def joinColon : List (List Char) → List Char
  | [] => []
  | [x] => x
  | x :: xs => x ++ ':' :: joinColon xs

/-- Embedding of `generateCacheKey` (redis.ts lines 58-60):
`parts.join(':')`. -/
def generateCacheKey (parts : List KeyPart) : String :=
  String.mk (joinColon (parts.map KeyPart.chars))

/-- Cache key built from string parts only, as every call site of
`generateCacheKey` in route.ts does. -/
def cacheKeyOfStrings (parts : List String) : String :=
  generateCacheKey (parts.map KeyPart.str)

/-- Media-details cache key: `generateCacheKey('media', type, id)`. -/
def mediaKey (mtype : String) (id : Nat) : String :=
  cacheKeyOfStrings ["media", mtype, toString id]

/-- Final-result cache key: `generateCacheKey('recommendations', type, id)`. -/
def recommendationsKey (mtype : String) (id : Nat) : String :=
  cacheKeyOfStrings ["recommendations", mtype, toString id]

/-! ### Cache layer and GET handler (route.ts lines 443-625)

The Redis store is modeled as an association list from keys to stored
values; `getCachedData` is a lookup and `setCachedData` an overwrite (the
claims under verification do not involve TTL expiry, so `expiresAt` is not
modeled).  The handler is modeled with the external provider as a function
from a media id to its fetch outcome, and it records the trace of cache
keys read and written. -/

/-- Value stored in the cache: media details or a final result list. -/
inductive CacheVal
  | media (m : MediaItem)
  | recs (r : List REntry)
deriving DecidableEq

/-- Cache contents. -/
abbrev Cache := List (String × CacheVal)

/-- Lookup of `getCachedData`. -/
def cacheGet (c : Cache) (k : String) : Option CacheVal :=
  (c.find? (fun e => e.1 == k)).map (fun e => e.2)

/-- Overwrite of `setCachedData`. -/
def cacheSet (c : Cache) (k : String) (v : CacheVal) : Cache :=
  (k, v) :: c.filter (fun e => e.1 != k)

/-- Outcome of one TMDB details request for one id. -/
inductive FetchResp
  | ok (item : MediaItem)
  | notFound
  | failure (status : Nat)

/-- External metadata provider: per-id outcome of the details request. -/
abbrev Provider := Nat → FetchResp

/-- The `baseDetails` normalization of route.ts lines 229-247:
`details.genres || []` and the keyword fallback always produce a list,
possibly empty; `patterns` is never set on this path. -/
def normalizeDetails (m : MediaItem) : MediaItem :=
  { m with genres := some (m.genres.getD []), keywords := some (m.keywords.getD []) }

/-- Embedding of route.ts `fetchMediaDetails` (lines 135-258): an invalid
media type throws, and any non-success response of the base details
request, a 404 included, throws (`if (!detailsRes.ok) ... throw`); only a
success produces details. -/
def fetchMediaDetails (p : Provider) (mtype : String) (id : Nat) : Except String MediaItem :=
  if mtype = "movie" ∨ mtype = "tv" then
    match p id with
    | .ok item => .ok (normalizeDetails item)
    | .notFound => .error "TMDB API request failed"
    | .failure _ => .error "TMDB API request failed"
  else .error "Invalid media type"

/-- Handler state: the cache plus the trace of keys read and written. -/
structure GETState where
  cache : Cache
  reads : List String
  writes : List String

/-- Write through `setCachedData`, recording the key. -/
def writeCache (st : GETState) (k : String) (v : CacheVal) : GETState :=
  { st with cache := cacheSet st.cache k v, writes := st.writes ++ [k] }

/-- Processing of one candidate (route.ts lines 549-587): read its media
cache entry unconditionally; on a miss fetch from the provider, a failure
rejecting the whole batch (the `Promise.all` rejection reaches the outer
catch), and a success being written back unconditionally; then score the
candidate against the seed details. -/
def processCandidate (p : Provider) (mtype : String) (media : MediaItem)
    (st : GETState) (cand : Nat × RecSource) : Except GETState (GETState × REntry) :=
  let key := mediaKey mtype cand.1
  let st1 : GETState := { st with reads := st.reads ++ [key] }
  match cacheGet st.cache key with
  | some (CacheVal.media d) =>
      Except.ok (st1, { id := cand.1, score := (calculateSimilarity media d cand.2).score })
  | _ =>
      match fetchMediaDetails p mtype cand.1 with
      | .error _ => Except.error st1
      | .ok d =>
          let st2 := writeCache st1 key (CacheVal.media d)
          Except.ok (st2, { id := cand.1, score := (calculateSimilarity media d cand.2).score })

/-- Sequentialized processing of the candidate batch. -/
def processAll (p : Provider) (mtype : String) (media : MediaItem) :
    List (Nat × RecSource) → GETState → List REntry → Except GETState (GETState × List REntry)
  | [], st, acc => Except.ok (st, acc)
  | c :: cs, st, acc =>
      match processCandidate p mtype media st c with
      | .error st1 => Except.error st1
      | .ok (st1, entry) => processAll p mtype media cs st1 (acc ++ [entry])

/-- Candidate list gathered in route.ts lines 537-540: direct
recommendations then similar items, each tagged with its source. -/
def candidatesOf (media : MediaItem) : List (Nat × RecSource) :=
  media.recommendations.map (fun i => (i, RecSource.direct)) ++
    media.similar.map (fun i => (i, RecSource.similar))

/-- HTTP-level outcome of the handler. -/
inductive GETResponse
  | ok (results : List REntry)
  | errorResp (status : Nat)
deriving DecidableEq

/-- Final state and response of one handler run. -/
structure GETOutcome where
  response : GETResponse
  cache : Cache
  reads : List String
  writes : List String

/-- Embedding of the `GET` handler of route.ts (lines 443-625), with the
cache and provider interactions in source order: read the cached result
list unless skipCache; read the seed media entry unless skipCache, on a
miss fetch it (a failure reaching the catch as a 500) and write it back
unless skipCache; return the cached result list when present; otherwise
process all candidates, deduplicate, sort, truncate to 20, and write the
final result list to the cache unconditionally. -/
def handleGET (p : Provider) (mtype : String) (mid : Nat) (skipCache : Bool)
    (cache0 : Cache) : GETOutcome :=
  let recsKey := recommendationsKey mtype mid
  let mKey := mediaKey mtype mid
  let st0 : GETState := { cache := cache0, reads := [], writes := [] }
  let step1 : Option (List REntry) × GETState :=
    if skipCache then (none, st0)
    else
      (match cacheGet st0.cache recsKey with | some (CacheVal.recs r) => some r | _ => none,
        { st0 with reads := st0.reads ++ [recsKey] })
  let cachedRecs := step1.1
  let st1 := step1.2
  let step2 : Option MediaItem × GETState :=
    if skipCache then (none, st1)
    else
      (match cacheGet st1.cache mKey with | some (CacheVal.media m) => some m | _ => none,
        { st1 with reads := st1.reads ++ [mKey] })
  let mediaStep : Except GETState (MediaItem × GETState) :=
    match step2.1 with
    | some m => Except.ok (m, step2.2)
    | none =>
        match fetchMediaDetails p mtype mid with
        | .error _ => Except.error step2.2
        | .ok m =>
            Except.ok (m, if skipCache then step2.2 else writeCache step2.2 mKey (CacheVal.media m))
  match mediaStep with
  | .error st => { response := .errorResp 500, cache := st.cache, reads := st.reads, writes := st.writes }
  | .ok (media, st2) =>
      match cachedRecs with
      | some r => { response := .ok r, cache := st2.cache, reads := st2.reads, writes := st2.writes }
      | none =>
          match processAll p mtype media (candidatesOf media) st2 [] with
          | .error st => { response := .errorResp 500, cache := st.cache, reads := st.reads, writes := st.writes }
          | .ok (st3, entries) =>
              let results := sortedRecommendations entries
              let st4 := writeCache st3 recsKey (CacheVal.recs results)
              { response := .ok results, cache := st4.cache, reads := st4.reads, writes := st4.writes }

/-- Ids of the returned result list; an error response has none. -/
def resultIds (out : GETOutcome) : List Nat :=
  match out.response with
  | .ok rs => rs.map (fun r => r.id)
  | .errorResp _ => []

/-! ### redis.ts fetchTMDBData (lines 101-138) -/

/-- Response fields of `fetchTMDBData` that the claims need: the typed
not-found result is the object whose `error` field is set. -/
structure TMDBResponse where
  id : Option Nat := none
  errorMsg : Option String := none
deriving DecidableEq

/-- One upstream attempt as seen by `fetchTMDBData`. -/
inductive TMDBAttempt
  | ok (resp : TMDBResponse)
  | rateLimited (retryAfterSeconds : ℚ)
  | notFound
  | failure (status : Nat)

/-- Embedding of redis.ts `fetchTMDBData` (lines 101-138) over the sequence
of successive upstream responses: a 429 sleeps and retries with the next
response, a 404 returns the typed object
`{ error: 'Not found in TMDB database' }`, any other non-success throws.
An empty attempt list models a network failure, which also throws. -/
def fetchTMDBData : List TMDBAttempt → Except String TMDBResponse
  | [] => .error "network failure"
  | a :: rest =>
      match a with
      | .ok r => .ok r
      | .notFound => .ok { errorMsg := some "Not found in TMDB database" }
      | .failure _ => .error "TMDB API error"
      | .rateLimited _ => fetchTMDBData rest

/-! ### Specification-side definitions

The two definitions below follow the wording of the specification, for
comparison against the embedded code; they are not translations of the
source. -/

/-- Specification wording for the final similarity score: the weighted sum
of the component scores that could actually be computed, divided by the sum
of the weights of exactly those components, then clamped to [0,1].  The
component scores and guards are those of route.ts; what this definition
adds, per the spec sentence, is the division by the applied weights (and,
per the missing-data sentence, a year component only when both dates are
present). -/
def specNormalizedScore (i1 i2 : MediaItem) (src : RecSource) : ℚ :=
  let comps : List (ℚ × ℚ) :=
    [(1, sourceTerm src)] ++
    (match i1.genres, i2.genres with
     | some g1, some g2 =>
         if max g1.length g2.length = 0 then []
         else [((idOverlapCount g1 g2 : ℚ) / (max g1.length g2.length : ℚ), genreMatchW)]
     | _, _ => []) ++
    (match i1.patterns, i2.patterns with
     | some p1, some p2 =>
         [(((p1.filter (fun p => p2.contains p)).length : ℚ) /
             (max p1.length (if p2.length = 0 then 1 else p2.length) : ℚ), thematicPatternW)]
     | _, _ => []) ++
    (match i2.vote_average, i2.vote_count with
     | some va, some vc =>
         if va = 0 ∨ vc = 0 then []
         else
           [(weightedRating va vc, voteAverageW)] ++
           (match i2.popularity with
            | some pop => if pop = 0 then [] else [(routePopularityComponent va vc pop, popularityW)]
            | none => [])
     | _, _ => []) ++
    (match i1.year, i2.year with
     | some y1, some y2 =>
         if y1 = 0 ∨ y2 = 0 then []
         else [(max 0 (1 - ((y1 - y2).natAbs : ℚ) / 10), yearProximityW)]
     | _, _ => [])
  let wsum := (comps.map (fun c => c.2)).sum
  let ssum := (comps.map (fun c => c.1 * c.2)).sum
  clamp01 (if wsum = 0 then 0 else ssum / wsum)

/-- Specification wording for the popularity-adjustment component:
`min(voteCount/1000, 1) * qualityScore * (1 - min(popularity/1000, 0.9))`. -/
def claimPopularityFormula (quality vc pop : ℚ) : ℚ :=
  min (vc / 1000) 1 * quality * (1 - min (pop / 1000) (9 / 10))

/-! ### Concrete fixtures for the settled claims -/

/-- Seed whose provider recommendation list erroneously contains the seed
itself. -/
def seedSelfItem : MediaItem :=
  { id := 5, genres := some [12], year := some 2020, recommendations := [5], similar := [] }

/-- Provider that returns `seedSelfItem` for id 5 and nothing else. -/
def selfProvider : Provider := fun i => if i = 5 then .ok seedSelfItem else .notFound

/-- Provider with seed 1 recommending candidate 7. -/
def oneCandidateProvider : Provider := fun i =>
  if i = 1 then .ok { id := 1, recommendations := [7], similar := [] }
  else if i = 7 then .ok { id := 7 }
  else .notFound

/-- Initial cache holding an aggregated result list for seed (tv, 1). -/
def preexistingRecsCache : Cache :=
  [(recommendationsKey "tv" 1, CacheVal.recs [{ id := 9, score := some 1 }])]

/-- Provider with seed 1 recommending candidate 2, whose details request
returns a 404. -/
def missingCandidateProvider : Provider := fun i =>
  if i = 1 then .ok { id := 1, recommendations := [2], similar := [] } else .notFound

/-- Item with more than 20 keywords, all shared with `richKeywordItem2`. -/
def richKeywordItem1 : MediaItem :=
  { id := 1, keywords := some (List.range 30), year := some 2020 }

/-- Second item of the over-capped keyword pair. -/
def richKeywordItem2 : MediaItem :=
  { id := 2, keywords := some (List.range 30), year := some 2020 }

/-- State held by an `Except`-valued candidate batch: the error payload or
the first component of the success payload. -/
def stateOfExcept : Except GETState (GETState × List REntry) → GETState
  | .error st => st
  | .ok (st, _) => st

/-- Cache keys of the candidates of the live (provider-fetched) seed
details, the keys that the handler may touch for candidates. -/
def liveCandidateKeys (p : Provider) (mtype : String) (mid : Nat) : List String :=
  match fetchMediaDetails p mtype mid with
  | .ok m => (candidatesOf m).map (fun c => mediaKey mtype c.1)
  | .error _ => []

/-! ## Theorems -/

/-! ### Generic facts about the comparator sort -/

theorem perm_insertLe {α : Type} (le : α → α → Bool) (x : α) :
    ∀ l : List α, List.Perm (insertLe le x l) (x :: l) := by
  intro l
  induction l with
  | nil => simp [insertLe]
  | cons y ys ih =>
      by_cases h : le x y = true
      · simp [insertLe, h]
      · simp only [insertLe, h, if_false]
        exact List.Perm.trans (List.Perm.cons y ih) (List.Perm.swap x y ys)

theorem perm_sortLe {α : Type} (le : α → α → Bool) :
    ∀ l : List α, List.Perm (sortLe le l) l := by
  intro l
  induction l with
  | nil => simp [sortLe]
  | cons x xs ih =>
      exact List.Perm.trans (perm_insertLe le x (sortLe le xs)) (List.Perm.cons x ih)

theorem mem_insertLe {α : Type} (le : α → α → Bool) (x : α) (l : List α) (z : α) :
    z ∈ insertLe le x l ↔ z = x ∨ z ∈ l := by
  have h := @List.Perm.mem_iff α z (insertLe le x l) (x :: l) (perm_insertLe le x l)
  simpa using h

theorem pairwise_insertLe {α : Type} (le : α → α → Bool)
    (total : ∀ a b, le a b = true ∨ le b a = true)
    (trans : ∀ a b c, le a b = true → le b c = true → le a c = true)
    (x : α) : ∀ l : List α, l.Pairwise (fun a b => le a b = true) →
      (insertLe le x l).Pairwise (fun a b => le a b = true) := by
  intro l
  induction l with
  | nil => intro _; simp [insertLe]
  | cons y ys ih =>
      intro h
      rcases List.pairwise_cons.mp h with ⟨hy, hys⟩
      by_cases hxy : le x y = true
      · simp only [insertLe, hxy, if_true]
        refine List.pairwise_cons.mpr ⟨?_, h⟩
        intro z hz
        rcases List.mem_cons.mp hz with rfl | hz
        · exact hxy
        · exact trans x y z hxy (hy z hz)
      · simp only [insertLe, hxy, if_false]
        refine List.pairwise_cons.mpr ⟨?_, ih hys⟩
        intro z hz
        rcases (mem_insertLe le x ys z).mp hz with rfl | hz
        · rcases total z y with h1 | h1
          · exact absurd h1 hxy
          · exact h1
        · exact hy z hz

theorem pairwise_sortLe {α : Type} (le : α → α → Bool)
    (total : ∀ a b, le a b = true ∨ le b a = true)
    (trans : ∀ a b c, le a b = true → le b c = true → le a c = true) :
    ∀ l : List α, (sortLe le l).Pairwise (fun a b => le a b = true) := by
  intro l
  induction l with
  | nil => simp [sortLe]
  | cons x xs ih => exact pairwise_insertLe le total trans x (sortLe le xs) ih

/-! ### Uniqueness through the route.ts reduce-deduplication -/

theorem pairwise_dedupeStep (acc : List REntry) (curr : REntry)
    (h : acc.Pairwise (fun a b => a.id ≠ b.id)) :
    (dedupeStep acc curr).Pairwise (fun a b => a.id ≠ b.id) := by
  unfold dedupeStep
  cases hf : acc.find? (fun item => item.id == curr.id) with
  | none =>
      have hall := List.find?_eq_none.mp hf
      refine List.pairwise_append.mpr ⟨h, List.pairwise_singleton _ _, ?_⟩
      intro a ha b hb
      rcases List.mem_singleton.mp hb with rfl
      intro hab
      exact hall a ha (by simpa using hab)
  | some existing =>
      by_cases hlt : jsLt existing.score curr.score = true
      · simp only [hlt, if_true]
        refine List.pairwise_append.mpr ⟨List.Pairwise.sublist (List.filter_sublist acc) h,
          List.pairwise_singleton _ _, ?_⟩
        intro a ha b hb
        rcases List.mem_singleton.mp hb with rfl
        have := (List.mem_filter.mp ha).2
        intro hab
        simp [hab] at this
      · simp only [hlt, if_false]
        exact h

theorem pairwise_foldl_dedupe (entries : List REntry) :
    ∀ acc : List REntry, acc.Pairwise (fun a b => a.id ≠ b.id) →
      (entries.foldl dedupeStep acc).Pairwise (fun a b => a.id ≠ b.id) := by
  induction entries with
  | nil => intro acc h; simpa using h
  | cons e es ih =>
      intro acc h
      simpa [List.foldl_cons] using ih (dedupeStep acc e) (pairwise_dedupeStep acc e h)

theorem pairwise_sortedRecommendations (entries : List REntry) :
    (sortedRecommendations entries).Pairwise (fun a b => a.id ≠ b.id) := by
  unfold sortedRecommendations
  have h1 := pairwise_foldl_dedupe entries [] (List.Pairwise.nil)
  have hperm := perm_sortLe scoreLe (entries.foldl dedupeStep [])
  have h2 := (List.Perm.pairwise_iff (fun h => Ne.symm h) hperm).mpr h1
  exact List.Pairwise.sublist (List.take_sublist 20 _) h2

/-! ### The rankAndDeduplicate comparator -/

theorem rankLe_iff (a b : MergedRec) :
    rankLe a b = true ↔ a.score > b.score ∨ (a.score = b.score ∧ a.frequency ≥ b.frequency) := by
  unfold rankLe
  by_cases h : b.score ≠ a.score
  · rw [if_pos h]
    simp only [decide_eq_true_eq]
    constructor
    · intro hle
      exact Or.inl (lt_of_le_of_ne hle h)
    · rintro (hlt | ⟨heq, _⟩)
      · exact le_of_lt hlt
      · exact absurd heq.symm h
  · rw [if_neg h]
    simp only [decide_eq_true_eq]
    push_neg at h
    constructor
    · intro hle; exact Or.inr ⟨h.symm, hle⟩
    · rintro (hlt | ⟨_, hge⟩)
      · exact absurd h.symm (ne_of_gt hlt)
      · exact hge

theorem rankLe_total (a b : MergedRec) : rankLe a b = true ∨ rankLe b a = true := by
  rcases lt_trichotomy a.score b.score with h | h | h
  · exact Or.inr ((rankLe_iff b a).mpr (Or.inl h))
  · rcases Nat.le_total b.frequency a.frequency with hf | hf
    · exact Or.inl ((rankLe_iff a b).mpr (Or.inr ⟨h, hf⟩))
    · exact Or.inr ((rankLe_iff b a).mpr (Or.inr ⟨h.symm, hf⟩))
  · exact Or.inl ((rankLe_iff a b).mpr (Or.inl h))

theorem rankLe_trans (a b c : MergedRec) (hab : rankLe a b = true) (hbc : rankLe b c = true) :
    rankLe a c = true := by
  rcases (rankLe_iff a b).mp hab with h1 | ⟨h1, hf1⟩
  · rcases (rankLe_iff b c).mp hbc with h2 | ⟨h2, _⟩
    · exact (rankLe_iff a c).mpr (Or.inl (lt_trans h2 h1))
    · exact (rankLe_iff a c).mpr (Or.inl (h2 ▸ h1))
  · rcases (rankLe_iff b c).mp hbc with h2 | ⟨h2, hf2⟩
    · exact (rankLe_iff a c).mpr (Or.inl (h1 ▸ h2))
    · exact (rankLe_iff a c).mpr (Or.inr ⟨h1.trans h2, le_trans hf2 hf1⟩)

/-! ### Membership in the classifier result -/

theorem mem_patterns_foldl (text : String) :
    ∀ (l : List (String × List String)) (acc : List String) (x : String),
      (x ∈ l.foldl (fun acc pm => if 3 ≤ markerTotal pm.2 text then acc ++ [pm.1] else acc) acc ↔
        x ∈ acc ∨ ∃ pm ∈ l, pm.1 = x ∧ 3 ≤ markerTotal pm.2 text) := by
  intro l
  induction l with
  | nil => intro acc x; simp
  | cons pm l ih =>
      intro acc x
      rw [List.foldl_cons, ih]
      by_cases h : 3 ≤ markerTotal pm.2 text
      · rw [if_pos h]
        simp only [List.mem_append, List.mem_cons, List.not_mem_nil, or_false]
        constructor
        · rintro ((hx | rfl) | hex)
          · exact Or.inl hx
          · exact Or.inr ⟨pm, Or.inl rfl, rfl, h⟩
          · rcases hex with ⟨q, hq, hqx, hqc⟩
            exact Or.inr ⟨q, Or.inr hq, hqx, hqc⟩
        · rintro (hx | ⟨q, hq | hq, hqx, hqc⟩)
          · exact Or.inl (Or.inl hx)
          · subst hq; exact Or.inl (Or.inr hqx.symm)
          · exact Or.inr ⟨q, hq, hqx, hqc⟩
      · rw [if_neg h]
        simp only [List.mem_cons]
        constructor
        · rintro (hx | ⟨q, hq, hqx, hqc⟩)
          · exact Or.inl hx
          · exact Or.inr ⟨q, Or.inr hq, hqx, hqc⟩
        · rintro (hx | ⟨q, hq | hq, hqx, hqc⟩)
          · exact Or.inl hx
          · subst hq; exact absurd hqc h
          · exact Or.inr ⟨q, hq, hqx, hqc⟩

/-! ### Injectivity of the colon join on colon-free parts -/

theorem colonfree_append_cancel :
    ∀ (a b u v : List Char), ':' ∉ a → ':' ∉ b →
      a ++ ':' :: u = b ++ ':' :: v → a = b ∧ u = v := by
  intro a
  induction a with
  | nil =>
      intro b u v _ hb h
      cases b with
      | nil => simpa using h
      | cons c bs =>
          simp only [List.nil_append, List.cons_append, List.cons.injEq] at h
          exact absurd (h.1 ▸ List.mem_cons_self c bs) hb
  | cons c as ih =>
      intro b u v ha hb h
      cases b with
      | nil =>
          simp only [List.cons_append, List.nil_append, List.cons.injEq] at h
          exact absurd (h.1 ▸ List.mem_cons_self c as) ha
      | cons d bs =>
          simp only [List.cons_append, List.cons.injEq] at h
          obtain ⟨rfl, h2⟩ := h
          have ha' : ':' ∉ as := fun hm => ha (List.mem_cons_of_mem c hm)
          have hb' : ':' ∉ bs := fun hm => hb (List.mem_cons_of_mem c hm)
          obtain ⟨rfl, rfl⟩ := ih bs u v ha' hb' h2
          exact ⟨rfl, rfl⟩

theorem colonfree_ne_append (x b v : List Char) (hx : ':' ∉ x) :
    x ≠ b ++ ':' :: v := by
  intro h
  exact hx (h ▸ List.mem_append.mpr (Or.inr (List.mem_cons_self ':' v)))

theorem joinColon_inj :
    ∀ (xs ys : List (List Char)), xs ≠ [] → ys ≠ [] →
      (∀ l ∈ xs, ':' ∉ l) → (∀ l ∈ ys, ':' ∉ l) →
      joinColon xs = joinColon ys → xs = ys := by
  intro xs
  induction xs with
  | nil => intro ys h; exact absurd rfl h
  | cons x xs ih =>
      intro ys _ hys hcx hcy h
      cases ys with
      | nil => exact absurd rfl hys
      | cons y ys =>
          cases xs with
          | nil =>
              cases ys with
              | nil => simpa [joinColon] using h
              | cons y2 ys2 =>
                  rw [show joinColon [x] = x from rfl] at h
                  rw [show joinColon (y :: y2 :: ys2) = y ++ ':' :: joinColon (y2 :: ys2) from rfl] at h
                  exact absurd h (colonfree_ne_append x y _ (hcx x (List.mem_cons_self x [])))
          | cons x2 xs2 =>
              cases ys with
              | nil =>
                  rw [show joinColon [y] = y from rfl] at h
                  rw [show joinColon (x :: x2 :: xs2) = x ++ ':' :: joinColon (x2 :: xs2) from rfl] at h
                  exact absurd h.symm (colonfree_ne_append y x _ (hcy y (List.mem_cons_self y [])))
              | cons y2 ys2 =>
                  rw [show joinColon (x :: x2 :: xs2) = x ++ ':' :: joinColon (x2 :: xs2) from rfl,
                    show joinColon (y :: y2 :: ys2) = y ++ ':' :: joinColon (y2 :: ys2) from rfl] at h
                  obtain ⟨hxy, h2⟩ := colonfree_append_cancel x y _ _
                    (hcx x (List.mem_cons_self x _)) (hcy y (List.mem_cons_self y _)) h
                  subst hxy
                  have := ih (y2 :: ys2) (by simp) (by simp)
                    (fun l hl => hcx l (List.mem_cons_of_mem x hl))
                    (fun l hl => hcy l (List.mem_cons_of_mem x hl)) h2
                  rw [this]

/-! ### Cache-trace facts about the GET handler -/

theorem cacheGet_cacheSet (c : Cache) (k : String) (v : CacheVal) (k' : String) :
    cacheGet (cacheSet c k v) k' = if k' = k then some v else cacheGet c k' := by
  by_cases h : k' = k
  · subst h
    simp [cacheGet, cacheSet, List.find?_cons]
  · rw [if_neg h]
    unfold cacheGet cacheSet
    rw [List.find?_cons]
    have hbeq : (k == k') = false := by
      simpa using fun he => h he.symm
    rw [hbeq]
    induction c with
    | nil => simp
    | cons e es ih =>
        by_cases he : e.1 = k
        · have h1 : (e.1 != k) = false := by simpa using he
          have h2 : (e.1 == k') = false := by
            simpa using fun hek => h (by rw [← hek, he])
          simp only [List.filter_cons, h1, if_false, List.find?_cons, h2]
          simpa using ih
        · have h1 : (e.1 != k) = true := by simpa using he
          simp only [List.filter_cons, h1, if_true, List.find?_cons]
          cases hk : (e.1 == k') with
          | true => rfl
          | false => simpa using ih

theorem processCandidate_cases (p : Provider) (mtype : String) (media : MediaItem)
    (st : GETState) (c : Nat × RecSource) :
    (∃ entry, processCandidate p mtype media st c =
        Except.ok ({ st with reads := st.reads ++ [mediaKey mtype c.1] }, entry)) ∨
    (processCandidate p mtype media st c =
        Except.error { st with reads := st.reads ++ [mediaKey mtype c.1] }) ∨
    (∃ d entry, processCandidate p mtype media st c =
        Except.ok ({ cache := cacheSet st.cache (mediaKey mtype c.1) (CacheVal.media d),
                     reads := st.reads ++ [mediaKey mtype c.1],
                     writes := st.writes ++ [mediaKey mtype c.1] }, entry)) := by
  have hdef : processCandidate p mtype media st c =
      match cacheGet st.cache (mediaKey mtype c.1) with
      | some (CacheVal.media d) =>
          Except.ok ({ st with reads := st.reads ++ [mediaKey mtype c.1] },
            ({ id := c.1, score := (calculateSimilarity media d c.2).score } : REntry))
      | _ =>
          match fetchMediaDetails p mtype c.1 with
          | .error _ => Except.error { st with reads := st.reads ++ [mediaKey mtype c.1] }
          | .ok d =>
              Except.ok ({ cache := cacheSet st.cache (mediaKey mtype c.1) (CacheVal.media d),
                           reads := st.reads ++ [mediaKey mtype c.1],
                           writes := st.writes ++ [mediaKey mtype c.1] },
                ({ id := c.1, score := (calculateSimilarity media d c.2).score } : REntry)) := rfl
  rw [hdef]
  cases hv : cacheGet st.cache (mediaKey mtype c.1) with
  | some v =>
      cases v with
      | media d => exact Or.inl ⟨_, rfl⟩
      | recs r =>
          cases hf : fetchMediaDetails p mtype c.1 with
          | error e => exact Or.inr (Or.inl rfl)
          | ok d => exact Or.inr (Or.inr ⟨d, _, rfl⟩)
  | none =>
      cases hf : fetchMediaDetails p mtype c.1 with
      | error e => exact Or.inr (Or.inl rfl)
      | ok d => exact Or.inr (Or.inr ⟨d, _, rfl⟩)

theorem processAll_trace (p : Provider) (mtype : String) (media : MediaItem) :
    ∀ (cs : List (Nat × RecSource)) (st : GETState) (acc : List REntry),
      (∀ k ∈ (stateOfExcept (processAll p mtype media cs st acc)).reads,
        k ∈ st.reads ∨ ∃ c ∈ cs, k = mediaKey mtype c.1) ∧
      (∀ k ∈ (stateOfExcept (processAll p mtype media cs st acc)).writes,
        k ∈ st.writes ∨ ∃ c ∈ cs, k = mediaKey mtype c.1) ∧
      (∀ k ∈ st.writes, k ∈ (stateOfExcept (processAll p mtype media cs st acc)).writes) ∧
      (∀ k, k ∉ (stateOfExcept (processAll p mtype media cs st acc)).writes →
        cacheGet (stateOfExcept (processAll p mtype media cs st acc)).cache k =
          cacheGet st.cache k) := by
  intro cs
  induction cs with
  | nil =>
      intro st acc
      refine ⟨fun k hk => Or.inl hk, fun k hk => Or.inl hk, fun k hk => hk, fun k _ => rfl⟩
  | cons c cs ih =>
      intro st acc
      rcases processCandidate_cases p mtype media st c with ⟨entry, hc⟩ | hc | ⟨d, entry, hc⟩
      · -- cache hit: only a read is appended
        have hstep : processAll p mtype media (c :: cs) st acc =
            match processCandidate p mtype media st c with
            | .error st1 => Except.error st1
            | .ok (st1, entry) => processAll p mtype media cs st1 (acc ++ [entry]) := rfl
        have hunf : processAll p mtype media (c :: cs) st acc =
            processAll p mtype media cs { st with reads := st.reads ++ [mediaKey mtype c.1] }
              (acc ++ [entry]) := by
          rw [hstep, hc]
        rw [hunf]
        obtain ⟨ihr, ihw, ihm, ihc⟩ := ih { st with reads := st.reads ++ [mediaKey mtype c.1] }
          (acc ++ [entry])
        refine ⟨?_, ?_, ?_, ?_⟩
        · intro k hk
          rcases ihr k hk with hk2 | ⟨c2, hc2, rfl⟩
          · rcases List.mem_append.mp hk2 with h1 | h1
            · exact Or.inl h1
            · rcases List.mem_singleton.mp h1 with rfl
              exact Or.inr ⟨c, List.mem_cons_self c cs, rfl⟩
          · exact Or.inr ⟨c2, List.mem_cons_of_mem c hc2, rfl⟩
        · intro k hk
          rcases ihw k hk with hk2 | ⟨c2, hc2, rfl⟩
          · exact Or.inl hk2
          · exact Or.inr ⟨c2, List.mem_cons_of_mem c hc2, rfl⟩
        · exact ihm
        · exact ihc
      · -- fetch failure: the batch rejects with the read appended
        have hstep : processAll p mtype media (c :: cs) st acc =
            match processCandidate p mtype media st c with
            | .error st1 => Except.error st1
            | .ok (st1, entry) => processAll p mtype media cs st1 (acc ++ [entry]) := rfl
        have hunf : stateOfExcept (processAll p mtype media (c :: cs) st acc) =
            { st with reads := st.reads ++ [mediaKey mtype c.1] } := by
          rw [hstep, hc]
          rfl
        rw [hunf]
        refine ⟨?_, fun k hk => Or.inl hk, fun k hk => hk, fun k _ => rfl⟩
        intro k hk
        rcases List.mem_append.mp hk with h1 | h1
        · exact Or.inl h1
        · rcases List.mem_singleton.mp h1 with rfl
          exact Or.inr ⟨c, List.mem_cons_self c cs, rfl⟩
      · -- miss: read and write of the candidate key
        have hstep : processAll p mtype media (c :: cs) st acc =
            match processCandidate p mtype media st c with
            | .error st1 => Except.error st1
            | .ok (st1, entry) => processAll p mtype media cs st1 (acc ++ [entry]) := rfl
        have hunf : processAll p mtype media (c :: cs) st acc =
            processAll p mtype media cs
              { cache := cacheSet st.cache (mediaKey mtype c.1) (CacheVal.media d),
                reads := st.reads ++ [mediaKey mtype c.1],
                writes := st.writes ++ [mediaKey mtype c.1] } (acc ++ [entry]) := by
          rw [hstep, hc]
        rw [hunf]
        obtain ⟨ihr, ihw, ihm, ihc⟩ := ih
          { cache := cacheSet st.cache (mediaKey mtype c.1) (CacheVal.media d),
            reads := st.reads ++ [mediaKey mtype c.1],
            writes := st.writes ++ [mediaKey mtype c.1] } (acc ++ [entry])
        refine ⟨?_, ?_, ?_, ?_⟩
        · intro k hk
          rcases ihr k hk with hk2 | ⟨c2, hc2, rfl⟩
          · rcases List.mem_append.mp hk2 with h1 | h1
            · exact Or.inl h1
            · rcases List.mem_singleton.mp h1 with rfl
              exact Or.inr ⟨c, List.mem_cons_self c cs, rfl⟩
          · exact Or.inr ⟨c2, List.mem_cons_of_mem c hc2, rfl⟩
        · intro k hk
          rcases ihw k hk with hk2 | ⟨c2, hc2, rfl⟩
          · rcases List.mem_append.mp hk2 with h1 | h1
            · exact Or.inl h1
            · rcases List.mem_singleton.mp h1 with rfl
              exact Or.inr ⟨c, List.mem_cons_self c cs, rfl⟩
          · exact Or.inr ⟨c2, List.mem_cons_of_mem c hc2, rfl⟩
        · intro k hk
          exact ihm k (List.mem_append.mpr (Or.inl hk))
        · intro k hk
          have hk2 : k ∉ st.writes ++ [mediaKey mtype c.1] := fun hmem => hk (ihm k hmem)
          have hkey : k ≠ mediaKey mtype c.1 := by
            intro he
            exact hk2 (List.mem_append.mpr (Or.inr (by simp [he])))
          rw [ihc k hk]
          rw [cacheGet_cacheSet]
          rw [if_neg hkey]

/-! ## Claim theorems -/

/-- C5: for every input text, `analyzePatterns` includes a label iff the
total count of case-insensitive, word-boundary occurrences of the marker
phrases of that label reaches the fixed threshold 3; in particular a text
with exactly 2 total marker occurrences for a pattern excludes it, one with
exactly 3 includes it, matching is case-insensitive, and a marker inside a
longer word does not count. -/
theorem analyzePatterns_threshold :
    (∀ (text : String) (x : String),
      x ∈ analyzePatterns text ↔
        ∃ pm ∈ patternMarkers, pm.1 = x ∧ 3 ≤ markerTotal pm.2 text) ∧
    analyzePatterns "dream dream" = [] ∧
    analyzePatterns "dream dream dream" = ["Unreliable Reality"] ∧
    analyzePatterns "DREAM Dream dReAm" = ["Unreliable Reality"] ∧
    analyzePatterns "daydream daydream daydream dreams" = [] ∧
    countOccurrences "dream" "daydream dreams dreamed DREAM" = 1 := by
  refine ⟨?_, by decide, by decide, by decide, by decide, by decide⟩
  intro text x
  simpa using mem_patterns_foldl text patternMarkers [] x

/-- C6: every adjacent pair of a `rankAndDeduplicate` result is ordered by
strictly descending score, with equal scores tie-broken by non-increasing
frequency (the match count). -/
theorem rankAndDeduplicate_sorted (prefs : UserPreferences) (recs : List EngineRec) :
    List.Chain'
      (fun a b => a.score > b.score ∨ (a.score = b.score ∧ a.frequency ≥ b.frequency))
      (rankAndDeduplicate prefs recs) := by
  unfold rankAndDeduplicate
  have h1 := pairwise_sortLe rankLe rankLe_total rankLe_trans (recs.foldl mergeInto [])
  have h2 : (sortLe rankLe (recs.foldl mergeInto [])).Pairwise
      (fun a b => a.score > b.score ∨ (a.score = b.score ∧ a.frequency ≥ b.frequency)) :=
    h1.imp (fun hab => (rankLe_iff _ _).mp hab)
  have h3 := List.Pairwise.sublist
    (@List.filter_sublist MergedRec (applyUserPreferences prefs)
      (sortLe rankLe (recs.foldl mergeInto []))) h2
  exact List.Pairwise.chain' h3

/-- C1 counterexample: the route.ts aggregation, given the same identity
surfaced by two paths with scores 1/5 and 3/5, returns a single entry whose
score is 3/5, the larger of the two, not their average 2/5. -/
theorem route_merge_keeps_max_not_average :
    sortedRecommendations
        [{ id := 7, score := some (1 / 5) }, { id := 7, score := some (3 / 5) }] =
      [{ id := 7, score := some (3 / 5) }] ∧
    (3 / 5 : ℚ) ≠ (1 / 5 + 3 / 5) / 2 := by
  constructor
  · norm_num [sortedRecommendations, dedupeStep, jsLt, sortLe, insertLe, scoreLe]
  · norm_num

/-- C1 amended: a candidate surfaced by exactly two paths yields exactly
one entry; in the legacy engine the merged entry carries the average of
the two path scores and frequency (match count) 2, while the route.ts
handler keeps the single entry with the larger of the two scores and
tracks no match count. -/
theorem merge_two_path_semantics (i : Nat) (s1 s2 : ℚ) (src1 src2 : String) (q1 q2 : ℚ) :
    rankAndDeduplicate {}
        [{ id := i, score := s1, source := src1 }, { id := i, score := s2, source := src2 }] =
      [{ id := i, score := (s1 + s2) / 2, source := src1, year := none, genre_ids := [],
         vote_average := 0, sources := [src1, src2], frequency := 2 }] ∧
    (sortedRecommendations
        [{ id := i, score := some q1 }, { id := i, score := some q2 }]).map
        (fun e => e.score) = [some (max q1 q2)] := by
  constructor
  · simp [rankAndDeduplicate, mergeInto, sortLe, insertLe, applyUserPreferences]
  · by_cases h : q1 < q2
    · rw [max_eq_right (le_of_lt h)]
      simp [sortedRecommendations, dedupeStep, jsLt, sortLe, insertLe, h]
    · rw [max_eq_left (not_lt.mp h)]
      simp [sortedRecommendations, dedupeStep, jsLt, sortLe, insertLe, h]

/-- C2 counterexample: a provider whose recommendation list for seed
(tv, 5) erroneously contains the seed itself produces a result that
contains the seed identity, so the seed is not excluded from the result. -/
theorem seed_not_excluded :
    resultIds (handleGET selfProvider "tv" 5 true []) = [5] := by
  decide

/-- C2 amended: whenever the handler actually computes its result (the
aggregated-result key holds no cached list, so the verbatim cache
early-return is not taken), no two elements of the returned result share an
id, and within one request all candidates share the media type, so no two
share a MediaIdentity; the seed itself is however not excluded and can
appear in the result. -/
theorem results_id_unique (p : Provider) (mtype : String) (mid : Nat) (skip : Bool)
    (cache0 : Cache)
    (hrec : ∀ r, cacheGet cache0 (recommendationsKey mtype mid) ≠ some (CacheVal.recs r)) :
    (resultIds (handleGET p mtype mid skip cache0)).Pairwise (· ≠ ·) := by
  unfold handleGET
  cases skip with
  | true =>
      simp only [if_pos]
      split
      · simp [resultIds]
      · split
        · simp [resultIds]
        · simp only [resultIds]
          exact (List.pairwise_map).mpr (pairwise_sortedRecommendations _)
  | false =>
      simp only [Bool.false_eq_true, if_false]
      cases hv : cacheGet cache0 (recommendationsKey mtype mid) with
      | none =>
          split
          · simp [resultIds]
          · split
            · simp [resultIds]
            · simp only [resultIds]
              exact (List.pairwise_map).mpr (pairwise_sortedRecommendations _)
      | some v =>
          cases v with
          | recs r => exact absurd hv (hrec r)
          | media m =>
              split
              · simp [resultIds]
              · split
                · simp [resultIds]
                · simp only [resultIds]
                  exact (List.pairwise_map).mpr (pairwise_sortedRecommendations _)

/-- Witness for `results_id_unique` at a concrete provider and the empty
cache. -/
theorem results_id_unique_witness :
    (∀ r, cacheGet [] (recommendationsKey "tv" 1) ≠ some (CacheVal.recs r)) ∧
    (resultIds (handleGET oneCandidateProvider "tv" 1 false [])).Pairwise (· ≠ ·) :=
  ⟨fun r => by simp [cacheGet],
    results_id_unique oneCandidateProvider "tv" 1 false [] (fun r => by simp [cacheGet])⟩

/-- C3: the similarity scorers divide by zero when both sides hold a
present-but-empty list (arrays are truthy in JS, so the emptiness guard is
never taken): 0/0 is NaN, NaN propagates through the final clamp of
route.ts and through the weight division of part_002, and the returned
score is NaN rather than a value of [0,1].  Empty genre lists are the
normal TMDB shape for unclassified titles, and `normalizeDetails` (the
`details.genres || []` fallback of route.ts) manufactures them even when
the provider omits the field. -/
theorem similarity_nan_on_empty_lists :
    (calculateSimilarity { id := 1, genres := some [] } { id := 2, genres := some [] }
        RecSource.direct).score = none ∧
    calculateSimilarity2 { id := 1, patterns := some [] } { id := 2, patterns := some [] } =
      none ∧
    (normalizeDetails { id := 1 }).genres = some [] := by
  exact ⟨rfl, rfl, rfl⟩

/-- C4 counterexample: for two bare items with equal release years the
route.ts score is the raw weighted sum 0.61 (source 0.60 plus year 0.01),
while the spec formula, the weighted sum divided by the 0.61 of applied
weight, is 1. -/
theorem score_not_weight_normalized :
    (calculateSimilarity { id := 1, year := some 2019 } { id := 2, year := some 2019 }
        RecSource.direct).score = some (61 / 100) ∧
    specNormalizedScore { id := 1, year := some 2019 } { id := 2, year := some 2019 }
        RecSource.direct = 1 ∧
    (61 / 100 : ℚ) ≠ 1 := by
  refine ⟨?_, ?_, by norm_num⟩
  · norm_num [calculateSimilarity, genreTerm, patternTerm, voteAndPopTerm, yearTerm,
      sourceTerm, effYear, clamp01, directRecommendationW, yearProximityW]
  · norm_num [specNormalizedScore, sourceTerm, effYear, clamp01, directRecommendationW,
      yearProximityW]

/-- C4 amended: the route.ts final score is the raw weighted component sum
clamped to [0,1], with no division by the sum of applied weights (the
reported totalWeight is the constant full sum), while the part_002 score
divides by the applied weights but never clamps, and exceeds 1 on a seed
with more than 20 keywords all shared with the candidate. -/
theorem score_normalization_semantics :
    (∀ (i1 i2 : MediaItem) (src : RecSource),
      (calculateSimilarity i1 i2 src).score =
        (calculateSimilarity i1 i2 src).weightedScore.map clamp01 ∧
      (calculateSimilarity i1 i2 src).totalWeight = TOTAL_WEIGHT) ∧
    calculateSimilarity2 richKeywordItem1 richKeywordItem2 = some (5 / 4) ∧
    (1 : ℚ) < 5 / 4 := by
  refine ⟨fun i1 i2 src => ⟨rfl, rfl⟩, ?_, by norm_num⟩
  have h : idOverlapCount (List.range 30) (List.range 30) = 30 := by decide
  simp [calculateSimilarity2, patternComp2, genreComp2, keywordComp2, yearComp2,
    ratingComp2, popAdjust2, richKeywordItem1, richKeywordItem2, effYear, h]
  norm_num

/-- C9 counterexample: at vote count 1000, vote average 8 and popularity
1000, the route.ts popularity component is 39/20: its dampener is capped at
0.5, not 0.9, and its quality factor is the mixed-scale weighted rating
39/10; the spec formula yields 2/25 with quality voteAverage/10, and
39/100 even when its quality factor is read as that weighted rating. -/
theorem route_popularity_cap_is_half :
    routePopularityComponent 8 1000 1000 = 39 / 20 ∧
    claimPopularityFormula (8 / 10) 1000 1000 = 2 / 25 ∧
    claimPopularityFormula (weightedRating 8 1000) 1000 1000 = 39 / 100 ∧
    (39 / 20 : ℚ) ≠ 2 / 25 ∧
    (39 / 20 : ℚ) ≠ 39 / 100 := by
  refine ⟨?_, ?_, ?_, by norm_num, by norm_num⟩
  · rw [routePopularityComponent, weightedRating]
    norm_num
  · rw [claimPopularityFormula]
    norm_num
  · rw [claimPopularityFormula, weightedRating]
    norm_num

/-- C9 amended: the popularity factor of the part_002 scorer equals
`min(voteCount/1000, 1) * (voteAverage/10) * (1 - min(popularity/1000, 0.9))`
with the 0.9 cap and is applied multiplicatively as
`score * (0.8 + factor * 0.2)` when vote count and popularity are truthy;
the route.ts scorer instead caps its dampener at 0.5 and multiplies the
Bayesian weighted rating. -/
theorem popularity_factor_semantics (va vc pop s : ℚ)
    (hvc : vc ≠ 0) (hpop : pop ≠ 0) :
    popularityFactor2
        { id := 1, vote_average := some va, vote_count := some vc, popularity := some pop } =
      claimPopularityFormula (va / 10) vc pop ∧
    popAdjust2
        { id := 1, vote_average := some va, vote_count := some vc, popularity := some pop } s =
      s * (8 / 10 +
        claimPopularityFormula (va / 10) vc pop * (2 / 10)) ∧
    routePopularityComponent va vc pop =
      min (vc / 1000) 1 * weightedRating va vc * (1 - min (pop / 1000) (1 / 2)) := by
  refine ⟨rfl, ?_, rfl⟩
  have hfac : popularityFactor2
      { id := 1, vote_average := some va, vote_count := some vc, popularity := some pop } =
      claimPopularityFormula (va / 10) vc pop := rfl
  rw [popAdjust2]
  simp only [hfac]
  rw [if_neg]
  simp [hvc, hpop]

/-- Witness for `popularity_factor_semantics` at concrete values. -/
theorem popularity_factor_semantics_witness :
    (1000 : ℚ) ≠ 0 ∧ (500 : ℚ) ≠ 0 ∧
    (popularityFactor2
        { id := 1, vote_average := some 8, vote_count := some 1000, popularity := some 500 } =
      claimPopularityFormula (8 / 10) 1000 500 ∧
    popAdjust2
        { id := 1, vote_average := some 8, vote_count := some 1000, popularity := some 500 } 1 =
      1 * (8 / 10 + claimPopularityFormula (8 / 10) 1000 500 * (2 / 10)) ∧
    routePopularityComponent 8 1000 500 =
      min ((1000 : ℚ) / 1000) 1 * weightedRating 8 1000 * (1 - min ((500 : ℚ) / 1000) (1 / 2))) :=
  ⟨by norm_num, by norm_num,
    popularity_factor_semantics 8 1000 500 1 (by norm_num) (by norm_num)⟩

/-- C7 counterexample: a skip-cache request still reads the candidate
media cache entry, still writes it, and overwrites the preexisting
aggregated-result entry, so the flag does not bypass all cache reads and
writes and does not leave existing entries unchanged. -/
theorem skipCache_still_touches_cache :
    (handleGET oneCandidateProvider "tv" 1 true preexistingRecsCache).reads =
      [mediaKey "tv" 7] ∧
    (handleGET oneCandidateProvider "tv" 1 true preexistingRecsCache).writes =
      [mediaKey "tv" 7, recommendationsKey "tv" 1] ∧
    cacheGet (handleGET oneCandidateProvider "tv" 1 true preexistingRecsCache).cache
        (recommendationsKey "tv" 1) ≠
      cacheGet preexistingRecsCache (recommendationsKey "tv" 1) := by
  exact ⟨by decide, by decide, by decide⟩

/-- C7 amended: with the skip-cache flag set, the handler performs no read
of the aggregated-result entry or of the seed media entry beyond candidate
processing: every key it reads is a candidate media key, every key it
writes is a candidate media key or the aggregated-result key (which it
always writes on the computing path), and every key it does not write is
left unchanged in the cache. -/
theorem skipCache_trace (p : Provider) (mtype : String) (mid : Nat) (cache0 : Cache) :
    (∀ k ∈ (handleGET p mtype mid true cache0).reads, k ∈ liveCandidateKeys p mtype mid) ∧
    (∀ k ∈ (handleGET p mtype mid true cache0).writes,
        k = recommendationsKey mtype mid ∨ k ∈ liveCandidateKeys p mtype mid) ∧
    (∀ k, k ∉ (handleGET p mtype mid true cache0).writes →
        cacheGet (handleGET p mtype mid true cache0).cache k = cacheGet cache0 k) := by
  unfold handleGET liveCandidateKeys
  simp only [if_pos]
  cases hf : fetchMediaDetails p mtype mid with
  | error e =>
      exact ⟨fun k hk => absurd hk (List.not_mem_nil k),
        fun k hk => absurd hk (List.not_mem_nil k), fun k _ => rfl⟩
  | ok m =>
      dsimp only
      have htr := processAll_trace p mtype m (candidatesOf m)
        { cache := cache0, reads := [], writes := [] } []
      cases hp : processAll p mtype m (candidatesOf m)
          { cache := cache0, reads := [], writes := [] } [] with
      | error st =>
          rw [hp] at htr
          obtain ⟨ihr, ihw, _, ihc⟩ := htr
          refine ⟨?_, ?_, ?_⟩
          · intro k hk
            rcases ihr k hk with hk2 | ⟨c, hc, rfl⟩
            · exact absurd hk2 (List.not_mem_nil k)
            · exact List.mem_map.mpr ⟨c, hc, rfl⟩
          · intro k hk
            rcases ihw k hk with hk2 | ⟨c, hc, rfl⟩
            · exact absurd hk2 (List.not_mem_nil k)
            · exact Or.inr (List.mem_map.mpr ⟨c, hc, rfl⟩)
          · intro k hk
            exact ihc k hk
      | ok res =>
          obtain ⟨st3, entries⟩ := res
          rw [hp] at htr
          obtain ⟨ihr, ihw, _, ihc⟩ := htr
          refine ⟨?_, ?_, ?_⟩
          · intro k hk
            rcases ihr k hk with hk2 | ⟨c, hc, rfl⟩
            · exact absurd hk2 (List.not_mem_nil k)
            · exact List.mem_map.mpr ⟨c, hc, rfl⟩
          · intro k hk
            simp only [writeCache] at hk
            rcases List.mem_append.mp hk with hk2 | hk2
            · rcases ihw k hk2 with hk3 | ⟨c, hc, rfl⟩
              · exact absurd hk3 (List.not_mem_nil k)
              · exact Or.inr (List.mem_map.mpr ⟨c, hc, rfl⟩)
            · exact Or.inl (List.mem_singleton.mp hk2)
          · intro k hk
            simp only [writeCache] at hk ⊢
            have hk2 : k ∉ st3.writes :=
              fun hmem => hk (List.mem_append.mpr (Or.inl hmem))
            have hkr : k ≠ recommendationsKey mtype mid :=
              fun he => hk (List.mem_append.mpr (Or.inr (by simp [he])))
            rw [cacheGet_cacheSet, if_neg hkr]
            exact ihc k hk2

/-- Witness for `skipCache_trace`: a key the concrete run does not write is
unchanged. -/
theorem skipCache_trace_witness :
    mediaKey "tv" 9 ∉ (handleGET oneCandidateProvider "tv" 1 true preexistingRecsCache).writes ∧
    cacheGet (handleGET oneCandidateProvider "tv" 1 true preexistingRecsCache).cache
        (mediaKey "tv" 9) =
      cacheGet preexistingRecsCache (mediaKey "tv" 9) :=
  ⟨by decide,
    (skipCache_trace oneCandidateProvider "tv" 1 preexistingRecsCache).2.2
      (mediaKey "tv" 9) (by decide)⟩

/-- C8: on a 404 the redis.ts fetcher returns the typed value whose error
field is the not-found message, without raising; the route.ts fetcher
instead throws on a 404, and a recommendations batch holding one such
candidate fails as a whole with a 500 rather than skipping it. -/
theorem notFound_fetch_semantics :
    (∀ rest, fetchTMDBData (TMDBAttempt.notFound :: rest) =
      Except.ok { id := none, errorMsg := some "Not found in TMDB database" }) ∧
    fetchMediaDetails (fun _ => FetchResp.notFound) "tv" 5 =
      Except.error "TMDB API request failed" ∧
    (handleGET missingCandidateProvider "tv" 1 true []).response =
      GETResponse.errorResp 500 := by
  refine ⟨fun rest => rfl, by rfl, by decide⟩

/-- C10 counterexample: the number part 1 and the string part "1" are
distinct colon-free parts with equal cache keys, so the key constructor is
not injective on colon-free part lists. -/
theorem generateCacheKey_collision :
    generateCacheKey [KeyPart.str "1"] = generateCacheKey [KeyPart.num 1] ∧
    [KeyPart.str "1"] ≠ [KeyPart.num 1] ∧
    (∀ l ∈ [KeyPart.str "1", KeyPart.num 1].map KeyPart.chars, ':' ∉ l) := by
  exact ⟨by decide, by decide, by decide⟩

/-- C10 amended: `generateCacheKey` is a pure function of its parts, and on
nonempty part lists whose string forms are free of the colon delimiter it
returns equal keys exactly when the lists of string forms are equal; parts
of different type with equal string forms collide, as does the empty list
with the singleton empty string. -/
theorem generateCacheKey_injective_on_colonfree (ps qs : List KeyPart)
    (hp : ps ≠ []) (hq : qs ≠ [])
    (hcp : ∀ l ∈ ps.map KeyPart.chars, ':' ∉ l)
    (hcq : ∀ l ∈ qs.map KeyPart.chars, ':' ∉ l) :
    generateCacheKey ps = generateCacheKey qs ↔
      ps.map KeyPart.chars = qs.map KeyPart.chars := by
  constructor
  · intro h
    have hdata : joinColon (ps.map KeyPart.chars) = joinColon (qs.map KeyPart.chars) := by
      simpa [generateCacheKey] using congrArg String.data h
    have hp' : ps.map KeyPart.chars ≠ [] := by
      simpa using hp
    have hq' : qs.map KeyPart.chars ≠ [] := by
      simpa using hq
    exact joinColon_inj _ _ hp' hq' hcp hcq hdata
  · intro h
    unfold generateCacheKey
    rw [h]

/-- Witness for `generateCacheKey_injective_on_colonfree` at concrete
parts. -/
theorem generateCacheKey_injective_witness :
    ([KeyPart.str "media"] ≠ ([] : List KeyPart)) ∧
    (generateCacheKey [KeyPart.str "media"] = generateCacheKey [KeyPart.str "recs"] ↔
      [KeyPart.str "media"].map KeyPart.chars = [KeyPart.str "recs"].map KeyPart.chars) :=
  ⟨by decide,
    generateCacheKey_injective_on_colonfree [KeyPart.str "media"] [KeyPart.str "recs"]
      (by decide) (by decide) (by decide) (by decide)⟩

end MediaRec
